import Mathlib

/-!
Verification development for the TechCoach document ingestion / classification /
retrieval core (app/agentic_core/rag/config.py, document_processor.py,
document_store.py and app/gateway/routers/documents.py).

Python text is embedded as `List Char`; Python slicing `s[:n]` becomes
`List.take n`, `len` becomes `List.length`, substring tests (`kw in s`)
become `hasSub`, `str.lower()` becomes `strLower`.  Python dictionaries
holding JSON-like values are embedded as association lists over `PyVal`.
External boundaries (the language model, the Unstructured reader, ChromaDB,
the SQLite metadata store) are passed in as explicit parameters or outcome
values; filesystem writes are recorded as fields of an effects record.
-/

/-- Python strings are modelled as lists of characters. -/
abbrev Str := List Char

/-- Convenience conversion from a Lean string literal to the model's text type. -/
def chars (s : String) : Str := s.toList

/-- Tests whether the first list is a leading segment of the second
(the model's building block for Python's substring operator). -/
def isPre : Str → Str → Bool
  | [], _ => true
  | _ :: _, [] => false
  | a :: as, b :: bs => a = b && isPre as bs

/-- Python's substring containment `needle in hay`. -/
def hasSub (hay needle : Str) : Bool :=
  match hay with
  | [] => needle.isEmpty
  | c :: t => isPre needle (c :: t) || hasSub t needle

/-- Python's `str.lower()`. -/
def strLower (s : Str) : Str := s.map Char.toLower

/-- Python's `str.endswith(suffix)`. -/
def isSuf (ending s : Str) : Bool := isPre ending.reverse s.reverse

/-- Python's `Path(p).name`: the part of a path after the last slash. -/
def pathName (p : Str) : Str := (p.reverse.takeWhile (fun c => !(c = '/'))).reverse

/-- Python's `len(s.encode('utf-8'))`: the UTF-8 byte size of a text. -/
def utf8Len (s : Str) : Nat := s.foldl (fun n c => n + c.utf8Size) 0

/-- JSON-like Python values as they occur in preprocessing results and metadata
dictionaries: strings, numbers (floats are embedded as rationals), booleans,
None/null, lists, and nested dictionaries. -/
inductive PyVal where
  | str (s : Str)
  | num (q : ℚ)
  | bool (b : Bool)
  | null
  | vlist (items : List PyVal)
  | dict (entries : List (Str × PyVal))

/-- A Python dictionary with string keys, embedded as an association list
(first occurrence of a key wins, mirroring unique dict keys). -/
abbrev PyDict := List (Str × PyVal)

/-- Python's `d.get(k)` / `d[k]` lookup. -/
def dictGet : PyDict → Str → Option PyVal
  | [], _ => none
  | (k, v) :: t, key => if k = key then some v else dictGet t key

/-- Python's `k in d`. -/
def dictContains (d : PyDict) (k : Str) : Bool := (dictGet d k).isSome

/-- Python's `d[k] = v` for a key that may or may not be present
(replaces in place, appends when absent). -/
def dictSet : PyDict → Str → PyVal → PyDict
  | [], k, v => [(k, v)]
  | (k', v') :: t, k, v => if k' = k then (k, v) :: t else (k', v') :: dictSet t k v

/-- Item-level step of `_truncate_metadata` (document_processor.py lines 41-45):
string items inside a list value are cut to 20 characters, other items kept. -/
def truncItem : PyVal → PyVal
  | .str s => if s.length > 20 then .str (s.take 20) else .str s
  | v => v

/-- `_truncate_metadata(metadata, max_field_length)` from
document_processor.py lines 21-51: string values longer than the cap are cut
to the cap, list values are limited to their first 5 items with string items
cut to 20 characters, all other values are kept as they are. -/
def truncate_metadata (metadata : PyDict) (max_field_length : Nat) : PyDict :=
  metadata.map (fun kv =>
    match kv.2 with
    | .str s => (kv.1, .str (if s.length > max_field_length then s.take max_field_length else s))
    | .vlist items => (kv.1, .vlist ((items.take 5).map truncItem))
    | v => (kv.1, v))

/-- One entry of `COLLECTION_CONFIGS` (config.py lines 71-178).  The
`metadata` sub-dictionary is flattened into its three fields. -/
structure CollectionConfig where
  name : Str
  description : Str
  meta_type : Str
  meta_purpose : Str
  meta_phase : Nat
  chunk_size : Nat
  chunk_overlap : Nat
  similarity_top_k : Nat
  required_metadata_fields : List Str
  optional_metadata_fields : List Str
deriving DecidableEq

/-- The collection registry `COLLECTION_CONFIGS` from config.py lines 71-178,
with the concrete chunking and retrieval constants from lines 25-50. -/
def COLLECTION_CONFIGS : List (Str × CollectionConfig) :=
  [ (chars "resumes",
     { name := chars "resumes",
       description := chars "存储用户所有版本的个人简历，可以用于职业发展相关的分析，匹配，推荐，面试准备等场景。",
       meta_type := chars "resume", meta_purpose := chars "job_matching", meta_phase := 1,
       chunk_size := 196, chunk_overlap := 30, similarity_top_k := 10,
       required_metadata_fields := [chars "target_job", chars "language", chars "last_updated"],
       optional_metadata_fields := [chars "version", chars "company_focus"] }),
    (chars "projects_experience",
     { name := chars "projects_experience",
       description := chars "存储用户所有项目和工作经验的详细材料，作为知识库用户分析用户的工作经验，学习路线，职业发展，查漏补缺等。",
       meta_type := chars "experience", meta_purpose := chars "resume_support", meta_phase := 1,
       chunk_size := 512, chunk_overlap := 50, similarity_top_k := 10,
       required_metadata_fields := [chars "project_name", chars "document_type", chars "is_technical"],
       optional_metadata_fields := [chars "related_resume_version", chars "tech_stack", chars "duration"] }),
    (chars "job_postings",
     { name := chars "job_postings",
       description := chars "存储收集到的目标岗位JD。用于市场需求分析、技能差距识别和简历匹配。",
       meta_type := chars "job_posting", meta_purpose := chars "market_analysis", meta_phase := 1,
       chunk_size := 384, chunk_overlap := 30, similarity_top_k := 10,
       required_metadata_fields := [chars "company_name", chars "job_title", chars "source_url"],
       optional_metadata_fields := [chars "salary_range", chars "location", chars "experience_level"] }),
    (chars "interviews",
     { name := chars "interviews",
       description := chars "存储所有面试的记录、问题和反馈。用于复盘、发现知识盲区和预测高频考点。",
       meta_type := chars "interview", meta_purpose := chars "interview_prep", meta_phase := 2,
       chunk_size := 256, chunk_overlap := 20, similarity_top_k := 12,
       required_metadata_fields := [chars "company_name", chars "job_title", chars "interview_round", chars "result", chars "interview_date"],
       optional_metadata_fields := [chars "interviewer", chars "difficulty", chars "feedback"] }),
    (chars "interview_qna_bank",
     { name := chars "interview_qna_bank",
       description := chars "从互联网、论坛、GitHub等渠道收集的通用面试题库，用于补充和扩展个人面试经验，进行模拟训练。",
       meta_type := chars "qna_bank", meta_purpose := chars "interview_training", meta_phase := 2,
       chunk_size := 128, chunk_overlap := 10, similarity_top_k := 15,
       required_metadata_fields := [chars "source", chars "job_domain", chars "question_type"],
       optional_metadata_fields := [chars "difficulty", chars "frequency", chars "tags"] }),
    (chars "code_analysis",
     { name := chars "code_analysis",
       description := chars "（针对开发者）存储对用户代码库的静态分析结果和摘要。用于客观评估技术能力和梳理技术亮点。",
       meta_type := chars "code_analysis", meta_purpose := chars "skill_assessment", meta_phase := 2,
       chunk_size := 1024, chunk_overlap := 100, similarity_top_k := 5,
       required_metadata_fields := [chars "repo_name", chars "primary_language", chars "key_frameworks", chars "analysis_date"],
       optional_metadata_fields := [chars "complexity_score", chars "test_coverage", chars "code_quality"] }),
    (chars "industry_trends",
     { name := chars "industry_trends",
       description := chars "存储行业报告和技术趋势分析文章。用于提升对话的战略高度和行业视野。",
       meta_type := chars "industry_trends", meta_purpose := chars "market_insight", meta_phase := 2,
       chunk_size := 512, chunk_overlap := 50, similarity_top_k := 8,
       required_metadata_fields := [chars "report_source", chars "publish_date", chars "key_topics"],
       optional_metadata_fields := [chars "industry", chars "region", chars "trend_type"] }) ]

/-- `get_collection_config(collection_type)` / `COLLECTION_CONFIGS.get(key)`:
registry lookup, `none` for an unknown key (config.py lines 259-261). -/
def configGet : Str → Option CollectionConfig :=
  fun ct => (COLLECTION_CONFIGS.find? (fun kv => kv.1 = ct)).map Prod.snd

/-- `get_chunk_config(collection_type)` (config.py lines 264-270): the
destination collection's `(chunk_size, chunk_overlap)` pair.  Every registry
entry defines both fields, so the Python-side defaults 512/50 never fire;
an unknown key, for which the Python code would raise on `None`, is `none`. -/
def get_chunk_config (ct : Str) : Option (Nat × Nat) :=
  (configGet ct).map (fun c => (c.chunk_size, c.chunk_overlap))

/-- `get_retrieval_config(collection_type)` (config.py lines 273-278): the
collection's `similarity_top_k`; `none` stands for the attribute error that
the Python code raises on an unknown key. -/
def get_retrieval_config (ct : Str) : Option Nat :=
  (configGet ct).map (fun c => c.similarity_top_k)

/-- Filename keywords routed to the resumes collection
(document_processor.py line 158). -/
def resume_keywords : List Str := [chars "resume", chars "cv", chars "简历"]

/-- Filename keywords routed to the projects/experience collection
(document_processor.py line 162). -/
def project_keywords : List Str := [chars "project", chars "experience", chars "项目", chars "经验"]

/-- Filename keywords routed to the job-postings collection
(document_processor.py line 166). -/
def job_keywords : List Str := [chars "job", chars "jd", chars "posting", chars "招聘", chars "职位"]

/-- The keyword cascade of `_get_fallback_preprocessing`
(document_processor.py lines 156-173): collection type, description and
abstract chosen from the lowercased filename. -/
def fallback_cda (filename_lower : Str) : Str × Str × Str :=
  if resume_keywords.any (fun kw => hasSub filename_lower kw) then
    (chars "resumes", chars "个人简历文档", chars "包含个人信息、工作经验和技能的简历文档")
  else if project_keywords.any (fun kw => hasSub filename_lower kw) then
    (chars "projects_experience", chars "项目经验文档", chars "描述项目经验和技术实现的文档")
  else if job_keywords.any (fun kw => hasSub filename_lower kw) then
    (chars "job_postings", chars "职位招聘信息", chars "包含职位要求和公司信息的招聘文档")
  else
    (chars "projects_experience", chars "通用文档", chars "未能自动分类的通用文档")

/-- `DocumentProcessor._get_fallback_preprocessing(filename)`
(document_processor.py lines 143-189).  The `datetime.now()` timestamp in the
fallback filename is passed in as `now_s`. -/
def get_fallback_preprocessing (filename now_s : Str) : PyDict :=
  let cda := fallback_cda (strLower filename)
  let fallback_filename :=
    if filename ≠ [] ∧ filename ≠ chars "未知" then filename
    else chars "文档_" ++ now_s
  [ (chars "renamed_filename", .str fallback_filename),
    (chars "description", .str cda.2.1),
    (chars "abstract", .str cda.2.2),
    (chars "cleaned_content", .str (chars "原始内容（未清理）")),
    (chars "collection_type", .str cda.1),
    (chars "metadata", .dict (truncate_metadata
      [ (chars "source", .str (chars "fallback_processing")),
        (chars "processing_method", .str (chars "heuristic")) ] 30)),
    (chars "confidence", .num ((3 : ℚ) / 10)),
    (chars "reasoning", .str (chars "基于文件名的启发式处理（LLM处理失败）")) ]

/-- The required keys of `_validate_preprocessing_result`
(document_processor.py line 128). -/
def required_keys : List Str :=
  [chars "renamed_filename", chars "description", chars "abstract",
   chars "cleaned_content", chars "collection_type"]

/-- `DocumentProcessor._validate_preprocessing_result(result)`
(document_processor.py lines 118-141): all required keys present and the
`collection_type` value a key of the registry.  A non-string
`collection_type` is never a registry key; for an unhashable value the
Python membership test raises, which the caller's generic handler turns into
the same fallback outcome as a `false` here. -/
def validate_preprocessing_result (result : PyDict) : Bool :=
  required_keys.all (fun k => dictContains result k) &&
  match dictGet result (chars "collection_type") with
  | some (.str s) => COLLECTION_CONFIGS.any (fun kv => kv.1 = s)
  | _ => false

/-- The observable outcome of the single language-model attempt inside
`process_document`: the call (or anything else in the try body) raised; the
response was not parseable as JSON; or it parsed to a JSON object, given as a
dictionary.  A response parsing to a non-object JSON value ends in the
fallback through a failed validation or a raised type error and is folded
into `exception`. -/
inductive LLMOutcome where
  | exception
  | badJson
  | parsed (result : PyDict)

/-- `DocumentProcessor.process_document(document_content, filename)`
(document_processor.py lines 70-116).  The prompt is built from the document
text and the filename; the model's reply is abstracted as `llm`.  On a valid
parsed reply the metadata entry, when present as a dictionary, is truncated
in place; a present non-dictionary metadata value makes `_truncate_metadata`
raise, which the outer handler turns into the fallback.  On every failure the
deterministic fallback result is returned. -/
def process_document (llm : LLMOutcome) (filename now_s : Str) : PyDict :=
  match llm with
  | .parsed result =>
    if validate_preprocessing_result result then
      match dictGet result (chars "metadata") with
      | some (.dict md) => dictSet result (chars "metadata") (.dict (truncate_metadata md 30))
      | some _ => get_fallback_preprocessing filename now_s
      | none => result
    else get_fallback_preprocessing filename now_s
  | _ => get_fallback_preprocessing filename now_s

/-- The three ways the language-model preprocessing path fails: an exception,
unparseable JSON, or a parsed reply that does not validate. -/
def llm_failed (llm : LLMOutcome) : Prop :=
  llm = .exception ∨ llm = .badJson ∨
    ∃ r, llm = .parsed r ∧ validate_preprocessing_result r = false

/-- The node-splitting configurations constructed inside
`ingest_single_document` (document_store.py lines 314-328): a
`SentenceSplitter` carrying a chunk-size / chunk-overlap pair and two
separator strings, or a `SemanticSplitterNodeParser` carrying its buffer
size and breakpoint percentile threshold. -/
inductive Splitter where
  | sentence (chunk_size chunk_overlap : Nat) (separator paragraph_separator : Str)
  | semantic (buffer_size breakpoint_percentile_threshold : Nat)
deriving DecidableEq

/-- The `SentenceSplitter` built at document_store.py lines 314-319 from the
destination collection's chunk configuration (source variable
named with a node/splitting prefix and stored but never applied). -/
def node_splitter (chunk_size chunk_overlap : Nat) : Splitter :=
  .sentence chunk_size chunk_overlap (chars "，,。？！；\n") (chars "---")

/-- The `SemanticSplitterNodeParser` built at document_store.py lines
321-326: buffer size 1, breakpoint percentile threshold 70, independent of
the destination collection. -/
def node_splitter_2 : Splitter := .semantic 1 70

/-- Document_store.py line 328: the splitting configuration actually handed
to the new-index transformations is the semantic one. -/
def selected_splitter : Splitter := node_splitter_2

/-- How the document was actually split during ingestion: passed through a
fresh index built with `transformations` equal to the selected splitting
configuration (document_store.py lines 349-353), or inserted into an
already-existing index, which applies that index's own stored
transformations (line 344). -/
inductive AppliedSplit where
  | newIndex (s : Splitter)
  | insertExisting
deriving DecidableEq

/-- Failure outcomes of `ingest_single_document`, i.e. the dictionaries with
`success: False` it returns.  `invalidInput` is the error at
document_store.py line 243 ("Either document_path or document_content must
be provided"); `noExtractedContent` the one at line 251;
`unknownCollection` the one at lines 306-309; `raised` stands for an
exception reaching the generic handler at lines 391-397, labelled with the
raising site. -/
inductive IngestError where
  | invalidInput
  | noExtractedContent (path : Str)
  | unknownCollection
  | raised (site : Str)
deriving DecidableEq

/-- The observable result of a successful run of `ingest_single_document`:
the resolved source path, the temporary file written for raw content (path
and content), the extracted text, the classifier inputs and outputs that
reach the filesystem and the vector store, the destination collection with
its chunk configuration, the splitter constructed from that configuration,
the splitter actually applied, and the reported byte size.
`permanent_content` is the text written to
`app_data/documents/<final_filename>` (line 286-287) and `vector_doc_text`
the `Document` text embedded and upserted (line 292-293). -/
structure IngestEffects where
  effective_path : Str
  temp_written : Option (Str × Str)
  content : Str
  original_filename : Str
  description : PyVal
  abstract : PyVal
  collection_type : Str
  final_filename : Str
  permanent_file_path : Str
  permanent_content : Str
  vector_doc_text : Str
  chunk_size : Nat
  chunk_overlap : Nat
  constructed_splitter : Splitter
  applied_splitter : AppliedSplit
  file_size : Nat

/-- Steps 1-5 of `DocumentStore.ingest_single_document` after input
resolution (document_store.py lines 245-389): extract text from the
resolved path (`extractFn` stands for the Unstructured reader over the
filesystem), preprocess through the language model, persist the cleaned
text, build the `Document`, look up the destination collection, configure
the splitters and ingest.  ChromaDB calls are modelled as succeeding; a
wrong-typed field from a validated reply raises exactly where the Python
code would (`endswith` on the renamed filename, the file write of the
cleaned content, hashing an unhashable collection key).  File writes on
paths that later fail are not recorded: only the returned result is
modelled. -/
def ingest_core (path : Str) (temp : Option (Str × Str)) (extractFn : Str → List Str)
    (llm : LLMOutcome) (now_s : Str) (indexes : List Str) :
    Except IngestError IngestEffects :=
  match extractFn path with
  | [] => .error (.noExtractedContent path)
  | content :: _ =>
    let original_filename := pathName path
    let pr := process_document llm original_filename now_s
    match (dictGet pr (chars "renamed_filename")).getD (PyVal.str original_filename) with
    | PyVal.str renamed_filename =>
      (let final_filename :=
        if isSuf (chars ".txt") renamed_filename then renamed_filename
        else renamed_filename ++ chars ".txt"
       match (dictGet pr (chars "cleaned_content")).getD (PyVal.str content) with
       | PyVal.str cleaned_content =>
         (match (dictGet pr (chars "collection_type")).getD (PyVal.str (chars "projects_experience")) with
          | PyVal.str ct =>
            (match configGet ct with
             | some cfg =>
               .ok { effective_path := path
                     temp_written := temp
                     content := content
                     original_filename := original_filename
                     description := (dictGet pr (chars "description")).getD (PyVal.str [])
                     abstract := (dictGet pr (chars "abstract")).getD (PyVal.str [])
                     collection_type := ct
                     final_filename := final_filename
                     permanent_file_path := chars "app_data/documents/" ++ final_filename
                     permanent_content := cleaned_content
                     vector_doc_text := cleaned_content
                     chunk_size := cfg.chunk_size
                     chunk_overlap := cfg.chunk_overlap
                     constructed_splitter := node_splitter cfg.chunk_size cfg.chunk_overlap
                     applied_splitter :=
                       if ct ∈ indexes then .insertExisting else .newIndex selected_splitter
                     file_size := utf8Len cleaned_content }
             | none => .error .unknownCollection)
          | PyVal.vlist _ => .error (.raised (chars "unhashable collection key"))
          | PyVal.dict _ => .error (.raised (chars "unhashable collection key"))
          | _ => .error .unknownCollection)
       | _ => .error (.raised (chars "write of non-string cleaned content")))
    | _ => .error (.raised (chars "endswith on non-string renamed filename"))

/-- `DocumentStore.ingest_single_document(document_path, document_content)`
(document_store.py lines 193-405).  Input resolution follows lines 234-243:
raw content is materialized to a timestamped temporary file only when no
path is given; with neither, the invalid-input error is returned; with a
path, the content argument is never read.  `indexes` is the set of
collection types with an in-memory index (`self.indexes`), `now_s` the
timestamp used both for the temporary filename and the fallback filename. -/
def ingest_single_document (document_path document_content : Option Str)
    (extractFn : Str → List Str) (llm : LLMOutcome) (now_s : Str) (indexes : List Str) :
    Except IngestError IngestEffects :=
  match document_path, document_content with
  | none, some c =>
      ingest_core (chars "app_data/temp/documents/temp_doc_" ++ now_s ++ chars ".txt")
        (some (chars "app_data/temp/documents/temp_doc_" ++ now_s ++ chars ".txt", c))
        extractFn llm now_s indexes
  | none, none => .error .invalidInput
  | some p, _ => ingest_core p none extractFn llm now_s indexes

/-- A document loaded by `SimpleDirectoryReader` inside
`DocumentStore.ingest_documents`. -/
structure LoadedDoc where
  text : Str

/-- The attribute the loop body of `DocumentStore.ingest_documents` looks up
at call time (document_store.py line 183).  The class defines no method of
that name anywhere in the repository, so Python's attribute resolution
fails with an AttributeError; the lookup is therefore modelled as absent. -/
def ingest_single_document_helper_lookup : Option (LoadedDoc → Option Str → Bool) := none

/-- `DocumentStore.ingest_documents(documents_path, collection_type)`
(document_store.py lines 170-191).  Loading via `SimpleDirectoryReader` is
abstracted as `loadOutcome` (an exception from the reader ends in the
generic handler).  With no documents the function logs and returns False;
otherwise the first loop iteration resolves the missing per-document helper
attribute, raising, and the handler returns False; had the attribute
existed, the function would count successes and report whether any
succeeded. -/
def ingest_documents (loadOutcome : Except Unit (List LoadedDoc))
    (collection_type : Option Str) : Bool :=
  match loadOutcome with
  | .error _ => false
  | .ok [] => false
  | .ok (d :: ds) =>
    match ingest_single_document_helper_lookup with
    | none => false
    | some f =>
      let success_count := (d :: ds).countP (fun doc => f doc collection_type)
      decide (0 < success_count)

/-- Outcome of the text-content branch of the gateway route
`POST /ingest` (documents.py lines 260-323): an HTTP 500 carrying the given
detail message, or the success payload, recording whether the metadata-store
row was actually written. -/
inductive RouteResult where
  | serverError (msg : Str)
  | success (dbSaved : Bool)
deriving DecidableEq

/-- Side effects the route can perform after the store call: attempting the
SQLite `create_document` write, or deleting a file (no code path emits the
latter; the constructor exists so its absence is expressible). -/
inductive RouteEffect where
  | dbWriteAttempted
  | fileDeleted (path : Str)
deriving DecidableEq

/-- The text-content branch of the gateway `ingest_documents` route
(documents.py lines 260-323) after request validation.  `storeCall` is the
outcome of `store._ingest_single_document(document, collection_type)`
(line 276; in the running program this raises, see
`ingest_single_document_helper_lookup`): an exception reaches the generic
handler (lines 327-329, HTTP 500), a False return raises the HTTP 500 at
lines 278-282, and on True the SQLite write is attempted inside its own
try block (lines 291-314) whose failure is logged and swallowed — the
route still returns the success payload and performs no file deletion. -/
def ingest_text_route (storeCall : Except Unit Bool) (dbWrite : Except Unit Unit) :
    RouteResult × List RouteEffect :=
  match storeCall with
  | .error _ => (.serverError (chars "Document ingestion failed"), [])
  | .ok false => (.serverError (chars "Failed to ingest text content"), [])
  | .ok true =>
    match dbWrite with
    | .error _ => (.success false, [.dbWriteAttempted])
    | .ok _ => (.success true, [.dbWriteAttempted])

/-- A node returned by a per-collection retriever inside
`DocumentStore.search_documents`: its text, similarity score (the higher the
more similar; `getattr(node, 'score', 0.0)`), metadata and identifier. -/
structure RNode where
  text : Str
  score : ℚ
  metadata : PyDict
  node_id : Str

/-- One result dictionary built at document_store.py lines 437-446, with
`overall_rank` still absent (`none`) until the final renumbering pass. -/
structure SearchEntry where
  rank : Nat
  content : Str
  score : ℚ
  source : PyVal
  metadata : PyDict
  node_id : Str
  collection_type : Str
  collection_rank : Nat
  overall_rank : Option Nat

/-- The per-collection result construction of document_store.py lines
436-447: enumerate the retained nodes, ranking within the collection from
`i`, with the source taken from the node metadata (default "unknown"). -/
def mkEntries (ct : Str) : Nat → List RNode → List SearchEntry
  | _, [] => []
  | i, n :: t =>
    { rank := i
      content := n.text
      score := n.score
      source := (dictGet n.metadata (chars "source")).getD (.str (chars "unknown"))
      metadata := n.metadata
      node_id := n.node_id
      collection_type := ct
      collection_rank := i
      overall_rank := none } :: mkEntries ct (i + 1) t

/-- The collection loop of `search_documents` (document_store.py lines
422-447): skip a requested collection without a retriever; for an available
one look up its retrieval configuration (an unregistered key raises there,
aborting the whole search) and keep the first
`min(top_k, similarity_top_k)` retrieved nodes. -/
def gatherResults (retrievers : List (Str × List RNode)) :
    List Str → Nat → Except Unit (List SearchEntry)
  | [], _ => .ok []
  | ct :: rest, top_k =>
    match (retrievers.find? (fun kv => kv.1 = ct)).map Prod.snd with
    | none => gatherResults retrievers rest top_k
    | some nodes =>
      match get_retrieval_config ct with
      | none => .error ()
      | some stk =>
        (gatherResults retrievers rest top_k).map
          (fun acc => mkEntries ct 1 (nodes.take (min top_k stk)) ++ acc)

/-- One step of the stable descending sort by score: the new element is
placed before the first existing element it strictly beats, hence after all
earlier elements with an equal or better score. -/
def insertScoreDesc (x : SearchEntry) : List SearchEntry → List SearchEntry
  | [] => [x]
  | y :: t => if y.score < x.score then x :: y :: t else y :: insertScoreDesc x t

/-- `all_results.sort(key=lambda x: x["score"], reverse=True)`
(document_store.py line 450): a stable sort by score descending, embedded as
left-to-right stable insertion (which produces the same list as any stable
descending sort by the same key). -/
def sortByScoreDesc (l : List SearchEntry) : List SearchEntry :=
  l.foldl (fun acc x => insertScoreDesc x acc) []

/-- The final renumbering pass of document_store.py lines 453-456:
`overall_rank` is assigned sequentially starting from `i`. -/
def renumber : Nat → List SearchEntry → List SearchEntry
  | _, [] => []
  | i, x :: t => { x with overall_rank := some i } :: renumber (i + 1) t

/-- `DocumentStore.search_documents(query_text, collection_types, top_k)`
(document_store.py lines 407-463).  The query text only influences which
nodes each retriever returns, so retrievers are modelled as the per-query
association of collection type to retrieved node list.  With no retrievers
at all the function returns `[]` at once; an exception inside the try body
(an available but unregistered collection key) also yields `[]`.  Otherwise
the per-collection results are concatenated, stably sorted by score
descending, truncated to `top_k` times the number of collections addressed,
and renumbered from 1. -/
def search_documents (retrievers : List (Str × List RNode))
    (collection_types : Option (List Str)) (top_k : Nat) : List SearchEntry :=
  if retrievers.isEmpty then []
  else
    let cts := collection_types.getD (retrievers.map Prod.fst)
    match gatherResults retrievers cts top_k with
    | .error _ => []
    | .ok all_results =>
      renumber 1 ((sortByScoreDesc all_results).take (top_k * cts.length))

/-- The token estimate of document_store.py line 481: one token per four
characters of chunk content, rounded down. -/
def estimated_tokens (content : Str) : Nat := content.length / 4

/-- The greedy selection loop of `get_document_context` (document_store.py
lines 474-489): walk the ranked results, and break before a block whose
estimated cost would push the running total past the budget. -/
def select_context (max_tokens : Nat) : Nat → List SearchEntry → List SearchEntry
  | _, [] => []
  | current, r :: rest =>
    if max_tokens < current + estimated_tokens r.content then []
    else r :: select_context max_tokens (current + estimated_tokens r.content) rest

/-- The blocks of `DocumentStore.get_document_context(query_text,
collection_types, max_tokens)` (document_store.py lines 465-495): search
with an internal `top_k` of 10, then greedily select a budget-bounded
prefix.  The returned string joins one header-plus-content block per
selected entry with a fixed delimiter; the selection carries all the token
accounting, so it is the modelled value. -/
def get_document_context (retrievers : List (Str × List RNode))
    (collection_types : Option (List Str)) (max_tokens : Nat) : List SearchEntry :=
  select_context max_tokens 0 (search_documents retrievers collection_types 10)

/-- The running total `current_length` of `get_document_context` for a
selection of blocks: the sum of the per-block token estimates. -/
def context_tokens (sel : List SearchEntry) : Nat :=
  (sel.map (fun r => estimated_tokens r.content)).sum

lemma process_document_of_failed (llm : LLMOutcome) (f n : Str) (h : llm_failed llm) :
    process_document llm f n = get_fallback_preprocessing f n := by
  rcases h with h | h | ⟨r, hr, hv⟩
  · subst h; rfl
  · subst h; rfl
  · subst hr; simp [process_document, hv]

lemma fallback_collection_type (f n : Str) :
    dictGet (get_fallback_preprocessing f n) (chars "collection_type")
      = some (.str (fallback_cda (strLower f)).1) := rfl

lemma fallback_confidence (f n : Str) :
    dictGet (get_fallback_preprocessing f n) (chars "confidence")
      = some (.num ((3 : ℚ) / 10)) := rfl

lemma fallback_reasoning (f n : Str) :
    dictGet (get_fallback_preprocessing f n) (chars "reasoning")
      = some (.str (chars "基于文件名的启发式处理（LLM处理失败）")) := rfl

lemma fallback_cleaned (f n : Str) :
    dictGet (get_fallback_preprocessing f n) (chars "cleaned_content")
      = some (.str (chars "原始内容（未清理）")) := rfl

lemma fallback_renamed (f n : Str) :
    dictGet (get_fallback_preprocessing f n) (chars "renamed_filename")
      = some (.str (if f ≠ [] ∧ f ≠ chars "未知" then f else chars "文档_" ++ n)) := rfl

lemma fallback_cda_mem (fl : Str) :
    ∃ kv ∈ COLLECTION_CONFIGS, (fallback_cda fl).1 = kv.1 := by
  unfold fallback_cda
  split
  · exact ⟨_, List.mem_cons_self _ _, rfl⟩
  · split
    · exact ⟨_, List.mem_cons_of_mem _ (List.mem_cons_self _ _), rfl⟩
    · split
      · exact ⟨_, List.mem_cons_of_mem _ (List.mem_cons_of_mem _ (List.mem_cons_self _ _)), rfl⟩
      · exact ⟨_, List.mem_cons_of_mem _ (List.mem_cons_self _ _), rfl⟩

lemma dictGet_dictSet_ne (d : PyDict) (k k' : Str) (v : PyVal) (h : k ≠ k') :
    dictGet (dictSet d k v) k' = dictGet d k' := by
  have h2 : k' ≠ k := Ne.symm h
  induction d with
  | nil => simp [dictSet, dictGet, h]
  | cons kv t ih =>
    rcases kv with ⟨k₀, v₀⟩
    by_cases hk : k₀ = k
    · subst hk
      simp [dictSet, dictGet, h, h2]
    · by_cases hk' : k₀ = k'
      · simp [dictSet, dictGet, hk, hk', h2]
      · simp [dictSet, dictGet, hk, hk', ih]

/-- C10: for every load outcome of `SimpleDirectoryReader` and every
`collection_type` argument, `DocumentStore.ingest_documents` returns False:
the per-document helper it invokes is not defined on the class, so the first
document raises an AttributeError that the handler converts into False, and
the empty and failing load cases return False directly. -/
theorem claim_C10_ingest_documents_always_false
    (loadOutcome : Except Unit (List LoadedDoc)) (collection_type : Option Str) :
    ingest_documents loadOutcome collection_type = false := by
  cases loadOutcome with
  | error e => rfl
  | ok docs => cases docs with
    | nil => rfl
    | cons d ds => rfl

/-- C4 (counterexample): at the only metadata-store write of the pipeline,
when the write fails after the store ingest succeeded, the route returns the
success payload with the row unsaved and attempts no file deletion —
refuting the claimed compensating delete of the persisted file. -/
theorem claim_C4_counterexample :
    (ingest_text_route (.ok true) (.error ())).1 = RouteResult.success false ∧
    ∀ p, RouteEffect.fileDeleted p ∉ (ingest_text_route (.ok true) (.error ())).2 := by
  refine ⟨rfl, ?_⟩
  intro p
  simp [ingest_text_route]

/-- C4 (amended): a metadata-store write failure after a successful ingest is
logged and swallowed — the route still returns a success payload — and no
code path of the route performs a file deletion. -/
theorem claim_C4_amended_no_rollback_deletion
    (storeCall : Except Unit Bool) (dbWrite : Except Unit Unit) :
    (∀ p, RouteEffect.fileDeleted p ∉ (ingest_text_route storeCall dbWrite).2) ∧
    (∃ b, (ingest_text_route (.ok true) dbWrite).1 = RouteResult.success b) := by
  constructor
  · intro p
    cases storeCall with
    | error e => simp [ingest_text_route]
    | ok b => cases b <;> cases dbWrite <;> simp [ingest_text_route]
  · cases dbWrite <;> exact ⟨_, rfl⟩

lemma ingest_core_ne_invalidInput (path : Str) (temp : Option (Str × Str))
    (extractFn : Str → List Str) (llm : LLMOutcome) (now_s : Str) (indexes : List Str) :
    ingest_core path temp extractFn llm now_s indexes ≠ Except.error IngestError.invalidInput := by
  intro h
  simp only [ingest_core] at h
  repeat' split at h
  all_goals simp at h

/-- C3 (counterexample): with both a path and raw content given,
`ingest_single_document` does not fail — it proceeds on the path, never
materializing the content (no temporary file), refuting the claimed
both-given invalid-input error. -/
theorem claim_C3_counterexample :
    ∃ eff, ingest_single_document (some (chars "a.txt")) (some (chars "raw"))
        (fun _ => [chars "hello"]) .exception (chars "20240101_000000_000000") [] = .ok eff ∧
      eff.temp_written = none ∧ eff.effective_path = chars "a.txt" :=
  ⟨_, rfl, rfl, rfl⟩

/-- C3 (amended): the invalid-input error is returned exactly when neither
`document_path` nor `document_content` is given; with both given the call
behaves identically to a path-only call (the content is ignored), and with
exactly one given the validation passes — the invalid-input error cannot be
the outcome. -/
theorem claim_C3_amended_input_validation (p c : Str) (extractFn : Str → List Str)
    (llm : LLMOutcome) (now_s : Str) (indexes : List Str) :
    ingest_single_document none none extractFn llm now_s indexes
        = .error .invalidInput ∧
    ingest_single_document (some p) (some c) extractFn llm now_s indexes
        = ingest_single_document (some p) none extractFn llm now_s indexes ∧
    ingest_single_document (some p) none extractFn llm now_s indexes
        ≠ .error .invalidInput ∧
    ingest_single_document none (some c) extractFn llm now_s indexes
        ≠ .error .invalidInput := by
  refine ⟨rfl, rfl, ?_, ?_⟩
  · exact ingest_core_ne_invalidInput _ _ _ _ _ _
  · exact ingest_core_ne_invalidInput _ _ _ _ _ _
/-- C1: for every language-model outcome and every filename, the
preprocessing result's collection key is a key of the collection registry:
the successful path validates membership before accepting, the fallback path
only emits registered keys. -/
theorem claim_C1_collection_key_registered (llm : LLMOutcome) (filename now_s : Str) :
    ∃ kv ∈ COLLECTION_CONFIGS,
      dictGet (process_document llm filename now_s) (chars "collection_type")
        = some (.str kv.1) := by
  have hfb : ∀ f n : Str, ∃ kv ∈ COLLECTION_CONFIGS,
      dictGet (get_fallback_preprocessing f n) (chars "collection_type")
        = some (PyVal.str kv.1) := by
    intro f n
    obtain ⟨kv, hm, he⟩ := fallback_cda_mem (strLower f)
    exact ⟨kv, hm, by rw [fallback_collection_type, he]⟩
  cases llm with
  | exception => exact hfb filename now_s
  | badJson => exact hfb filename now_s
  | parsed r =>
    by_cases hv : validate_preprocessing_result r = true
    · have hct : ∃ kv ∈ COLLECTION_CONFIGS,
          dictGet r (chars "collection_type") = some (PyVal.str kv.1) := by
        have hv' := hv
        unfold validate_preprocessing_result at hv'
        rw [Bool.and_eq_true] at hv'
        obtain ⟨-, h2⟩ := hv'
        cases e : dictGet r (chars "collection_type") with
        | none => rw [e] at h2; simp at h2
        | some v =>
          cases v with
          | str s =>
            rw [e] at h2
            simp only [List.any_eq_true] at h2
            obtain ⟨kv, hm, hd⟩ := h2
            exact ⟨kv, hm, by rw [of_decide_eq_true hd]⟩
          | num q => rw [e] at h2; simp at h2
          | bool b => rw [e] at h2; simp at h2
          | null => rw [e] at h2; simp at h2
          | vlist items => rw [e] at h2; simp at h2
          | dict entries => rw [e] at h2; simp at h2
      simp only [process_document]
      rw [if_pos hv]
      cases e : dictGet r (chars "metadata") with
      | none => exact hct
      | some v =>
        cases v with
        | dict md =>
          obtain ⟨kv, hm, he⟩ := hct
          exact ⟨kv, hm, by rw [dictGet_dictSet_ne _ _ _ _ (by decide), he]⟩
        | str s => exact hfb filename now_s
        | num q => exact hfb filename now_s
        | bool b => exact hfb filename now_s
        | null => exact hfb filename now_s
        | vlist items => exact hfb filename now_s
    · have hv' : validate_preprocessing_result r = false := by
        simpa using hv
      simp only [process_document]
      rw [if_neg (by simp [hv'])]
      exact hfb filename now_s
/-- C5: whenever the language-model preprocessing path fails, a filename
containing a resume keyword ("resume", "cv", "简历"; matching is on the
lowercased filename) makes the deterministic fallback classify into
"resumes" with confidence exactly 0.3 and the fixed heuristic reasoning
string; with no keyword of any group matching, it defaults to
"projects_experience" with the same confidence. -/
theorem claim_C5_fallback_keyword_routing (llm : LLMOutcome) (filename now_s : Str)
    (h : llm_failed llm) :
    ((∃ kw ∈ resume_keywords, hasSub (strLower filename) kw = true) →
      dictGet (process_document llm filename now_s) (chars "collection_type")
          = some (.str (chars "resumes")) ∧
      dictGet (process_document llm filename now_s) (chars "confidence")
          = some (.num ((3 : ℚ) / 10)) ∧
      dictGet (process_document llm filename now_s) (chars "reasoning")
          = some (.str (chars "基于文件名的启发式处理（LLM处理失败）"))) ∧
    ((∀ kw ∈ resume_keywords ++ project_keywords ++ job_keywords,
        hasSub (strLower filename) kw = false) →
      dictGet (process_document llm filename now_s) (chars "collection_type")
          = some (.str (chars "projects_experience")) ∧
      dictGet (process_document llm filename now_s) (chars "confidence")
          = some (.num ((3 : ℚ) / 10))) := by
  rw [process_document_of_failed _ _ _ h]
  constructor
  · rintro ⟨kw, hkw, hsub⟩
    have hany : resume_keywords.any (fun kw => hasSub (strLower filename) kw) = true :=
      List.any_eq_true.mpr ⟨kw, hkw, hsub⟩
    refine ⟨?_, fallback_confidence _ _, fallback_reasoning _ _⟩
    rw [fallback_collection_type]
    simp [fallback_cda, hany]
  · intro hforall
    have h1 : resume_keywords.any (fun kw => hasSub (strLower filename) kw) = false := by
      rw [List.any_eq_false]
      intro x hx
      simp [hforall x (by simp [List.mem_append, hx])]
    have h2 : project_keywords.any (fun kw => hasSub (strLower filename) kw) = false := by
      rw [List.any_eq_false]
      intro x hx
      simp [hforall x (by simp [List.mem_append, hx])]
    have h3 : job_keywords.any (fun kw => hasSub (strLower filename) kw) = false := by
      rw [List.any_eq_false]
      intro x hx
      simp [hforall x (by simp [List.mem_append, hx])]
    refine ⟨?_, fallback_confidence _ _⟩
    rw [fallback_collection_type]
    simp [fallback_cda, h1, h2, h3]

/-- Witness for C5: the language model raising on the filename
"张三_简历.txt" yields the resumes classification with confidence 0.3. -/
theorem claim_C5_witness :
    llm_failed LLMOutcome.exception ∧
    dictGet (process_document LLMOutcome.exception (chars "张三_简历.txt") (chars "20240101"))
        (chars "collection_type") = some (.str (chars "resumes")) ∧
    dictGet (process_document LLMOutcome.exception (chars "张三_简历.txt") (chars "20240101"))
        (chars "confidence") = some (.num ((3 : ℚ) / 10)) := by
  have hf : llm_failed LLMOutcome.exception := Or.inl rfl
  have hc := (claim_C5_fallback_keyword_routing LLMOutcome.exception
      (chars "张三_简历.txt") (chars "20240101") hf).1
      ⟨chars "简历", by decide, by decide⟩
  exact ⟨hf, hc.1, hc.2.1⟩
/-- C8: metadata truncation preserves the keys in order and, entrywise:
a string value longer than the cap becomes its first `cap` characters
(length exactly `cap`), a string value within the cap is unchanged, a list
value becomes a list of at most 5 items in which each string item longer
than 20 characters becomes its first 20 characters (length exactly 20),
each string item within 20 characters is unchanged and each non-string item
is unchanged, and every non-string non-list value is unchanged. -/
theorem claim_C8_metadata_truncation (m : PyDict) (cap : Nat) :
    ((truncate_metadata m cap).map Prod.fst = m.map Prod.fst) ∧
    List.Forall₂ (fun kv kv' : Str × PyVal =>
      (∀ s, kv.2 = PyVal.str s →
        (cap < s.length → kv'.2 = PyVal.str (s.take cap) ∧ (s.take cap).length = cap) ∧
        (s.length ≤ cap → kv'.2 = PyVal.str s)) ∧
      (∀ l, kv.2 = PyVal.vlist l →
        ∃ l', kv'.2 = PyVal.vlist l' ∧ l'.length ≤ 5 ∧
          List.Forall₂ (fun v v' =>
            (∀ s, v = PyVal.str s →
              (20 < s.length → v' = PyVal.str (s.take 20) ∧ (s.take 20).length = 20) ∧
              (s.length ≤ 20 → v' = v)) ∧
            ((∀ s, v ≠ PyVal.str s) → v' = v)) (l.take 5) l') ∧
      ((∀ s, kv.2 ≠ PyVal.str s) → (∀ l, kv.2 ≠ PyVal.vlist l) → kv'.2 = kv.2))
      m (truncate_metadata m cap) := by
  constructor
  · rw [truncate_metadata, List.map_map]
    apply List.map_congr_left
    intro kv _
    rcases kv with ⟨k, v⟩
    cases v <;> rfl
  · rw [truncate_metadata, List.forall₂_map_right_iff, List.forall₂_same]
    intro kv _
    rcases kv with ⟨k, v⟩
    cases v with
    | str s =>
      dsimp only
      refine ⟨?_, ?_, ?_⟩
      · intro s' hs'
        cases hs'
        constructor
        · intro hlen
          rw [if_pos (by omega)]
          refine ⟨rfl, ?_⟩
          rw [List.length_take]
          omega
        · intro hlen
          rw [if_neg (by omega)]
      · intro l hl
        exact absurd hl (by simp)
      · intro hnstr _
        exact absurd rfl (hnstr s)
    | vlist l =>
      dsimp only
      refine ⟨?_, ?_, ?_⟩
      · intro s hs
        exact absurd hs (by simp)
      · intro l' hl'
        cases hl'
        refine ⟨(l.take 5).map truncItem, rfl, ?_, ?_⟩
        · rw [List.length_map, List.length_take]
          omega
        · rw [List.forall₂_map_right_iff, List.forall₂_same]
          intro v _
          cases v with
          | str s =>
            refine ⟨?_, ?_⟩
            · intro s' hs'
              cases hs'
              constructor
              · intro hlen
                simp only [truncItem]
                rw [if_pos (by omega)]
                refine ⟨rfl, ?_⟩
                rw [List.length_take]
                omega
              · intro hlen
                simp only [truncItem]
                rw [if_neg (by omega)]
            · intro hnstr
              exact absurd rfl (hnstr s)
          | num q => exact ⟨by intro s hs; exact absurd hs (by simp), fun _ => rfl⟩
          | bool b => exact ⟨by intro s hs; exact absurd hs (by simp), fun _ => rfl⟩
          | null => exact ⟨by intro s hs; exact absurd hs (by simp), fun _ => rfl⟩
          | vlist li => exact ⟨by intro s hs; exact absurd hs (by simp), fun _ => rfl⟩
          | dict en => exact ⟨by intro s hs; exact absurd hs (by simp), fun _ => rfl⟩
      · intro _ hnl
        exact absurd rfl (hnl l)
    | num q =>
      exact ⟨by intro s hs; exact absurd hs (by simp),
             by intro l hl; exact absurd hl (by simp), fun _ _ => rfl⟩
    | bool b =>
      exact ⟨by intro s hs; exact absurd hs (by simp),
             by intro l hl; exact absurd hl (by simp), fun _ _ => rfl⟩
    | null =>
      exact ⟨by intro s hs; exact absurd hs (by simp),
             by intro l hl; exact absurd hl (by simp), fun _ _ => rfl⟩
    | dict en =>
      exact ⟨by intro s hs; exact absurd hs (by simp),
             by intro l hl; exact absurd hl (by simp), fun _ _ => rfl⟩
lemma ingest_core_content (path : Str) (temp : Option (Str × Str))
    (extractFn : Str → List Str) (llm : LLMOutcome) (now_s : Str) (indexes : List Str)
    (eff : IngestEffects)
    (hok : ingest_core path temp extractFn llm now_s indexes = .ok eff) :
    PyVal.str eff.permanent_content
      = (dictGet (process_document llm (pathName path) now_s)
          (chars "cleaned_content")).getD (PyVal.str eff.content) ∧
    eff.vector_doc_text = eff.permanent_content := by
  simp only [ingest_core] at hok
  repeat' split at hok
  any_goals simp at hok
  all_goals (subst hok; exact ⟨Eq.symm (by assumption), rfl⟩)

lemma ingest_core_splitter (path : Str) (temp : Option (Str × Str))
    (extractFn : Str → List Str) (llm : LLMOutcome) (now_s : Str) (indexes : List Str)
    (eff : IngestEffects)
    (hok : ingest_core path temp extractFn llm now_s indexes = .ok eff) :
    get_chunk_config eff.collection_type = some (eff.chunk_size, eff.chunk_overlap) ∧
    eff.constructed_splitter = node_splitter eff.chunk_size eff.chunk_overlap ∧
    (eff.applied_splitter = .insertExisting ∨
     eff.applied_splitter = .newIndex (Splitter.semantic 1 70)) := by
  simp only [ingest_core] at hok
  repeat' split at hok
  any_goals simp at hok
  all_goals (subst hok; simp_all [get_chunk_config, selected_splitter, node_splitter_2])
/-- C9: whenever the heuristic fallback path is taken, a successful ingestion
persists the constant placeholder text both to the permanent file and as the
embedded document text, independent of the extracted content. -/
theorem claim_C9_fallback_placeholder_persisted
    (document_path document_content : Option Str) (extractFn : Str → List Str)
    (llm : LLMOutcome) (now_s : Str) (indexes : List Str) (eff : IngestEffects)
    (hfail : llm_failed llm)
    (hok : ingest_single_document document_path document_content extractFn llm now_s indexes
            = .ok eff) :
    eff.permanent_content = chars "原始内容（未清理）" ∧
    eff.vector_doc_text = chars "原始内容（未清理）" := by
  have key : ∀ (path : Str) (temp : Option (Str × Str)),
      ingest_core path temp extractFn llm now_s indexes = .ok eff →
      eff.permanent_content = chars "原始内容（未清理）" ∧
      eff.vector_doc_text = chars "原始内容（未清理）" := by
    intro path temp hc
    obtain ⟨h1, h2⟩ := ingest_core_content path temp extractFn llm now_s indexes eff hc
    rw [process_document_of_failed _ _ _ hfail, fallback_cleaned] at h1
    simp only [Option.getD_some, PyVal.str.injEq] at h1
    exact ⟨h1, by rw [h2, h1]⟩
  cases document_path with
  | some p => exact key p none hok
  | none =>
    cases document_content with
    | some c => exact key _ _ hok
    | none => simp [ingest_single_document] at hok

/-- Witness for C9: a concrete path-based ingestion under a raising language
model succeeds and stores the placeholder, not the extracted text. -/
theorem claim_C9_witness :
    ∃ eff, ingest_single_document (some (chars "docs/a.txt")) none
        (fun _ => [chars "hello world"]) LLMOutcome.exception (chars "20240101") [] = .ok eff ∧
      eff.permanent_content = chars "原始内容（未清理）" ∧
      eff.vector_doc_text = chars "原始内容（未清理）" := by
  refine ⟨_, rfl, ?_⟩
  exact claim_C9_fallback_placeholder_persisted (some (chars "docs/a.txt")) none
    (fun _ => [chars "hello world"]) LLMOutcome.exception (chars "20240101") [] _
    (Or.inl rfl) rfl

/-- C2 (amended): every successful ingestion fetches the destination
collection's `(chunk_size, chunk_overlap)` pair from the registry and
constructs the corresponding `SentenceSplitter`, but the transformation
actually applied is either the fixed semantic splitter (buffer size 1,
breakpoint percentile 70) on the new-index path or the existing index's own
transformations on the insert path — never the collection-specific pair. -/
theorem claim_C2_amended_fixed_splitter
    (document_path document_content : Option Str) (extractFn : Str → List Str)
    (llm : LLMOutcome) (now_s : Str) (indexes : List Str) (eff : IngestEffects)
    (hok : ingest_single_document document_path document_content extractFn llm now_s indexes
            = .ok eff) :
    get_chunk_config eff.collection_type = some (eff.chunk_size, eff.chunk_overlap) ∧
    eff.constructed_splitter = node_splitter eff.chunk_size eff.chunk_overlap ∧
    (eff.applied_splitter = .insertExisting ∨
     eff.applied_splitter = .newIndex (Splitter.semantic 1 70)) := by
  cases document_path with
  | some p => exact ingest_core_splitter p none _ _ _ _ _ hok
  | none =>
    cases document_content with
    | some c => exact ingest_core_splitter _ _ _ _ _ _ _ hok
    | none => simp [ingest_single_document] at hok

/-- Witness for the amended C2 at a concrete successful ingestion. -/
theorem claim_C2_amended_witness :
    ∃ eff, ingest_single_document (some (chars "b.txt")) none (fun _ => [chars "text"])
        LLMOutcome.exception (chars "20240102") [] = .ok eff ∧
      get_chunk_config eff.collection_type = some (eff.chunk_size, eff.chunk_overlap) ∧
      eff.constructed_splitter = node_splitter eff.chunk_size eff.chunk_overlap ∧
      (eff.applied_splitter = .insertExisting ∨
       eff.applied_splitter = .newIndex (Splitter.semantic 1 70)) := by
  refine ⟨_, rfl, ?_⟩
  exact claim_C2_amended_fixed_splitter (some (chars "b.txt")) none (fun _ => [chars "text"])
    LLMOutcome.exception (chars "20240102") [] _ rfl

/-- C2 (counterexample): two documents validly classified into collections
with different registry chunk policies ("resumes": 196/30,
"code_analysis": 1024/100) are both split by the identical fixed semantic
splitter — the collection-specific parameters do not reach the applied
splitter, refuting splitting according to the destination's configured
pair. -/
theorem claim_C2_counterexample :
    get_chunk_config (chars "resumes") ≠ get_chunk_config (chars "code_analysis") ∧
    ∃ eA eB,
      ingest_single_document (some (chars "a.txt")) none (fun _ => [chars "hello"])
        (LLMOutcome.parsed
          [ (chars "renamed_filename", .str (chars "简历文档")),
            (chars "description", .str (chars "一份简历")),
            (chars "abstract", .str (chars "某人的简历")),
            (chars "cleaned_content", .str (chars "整理后的简历内容")),
            (chars "collection_type", .str (chars "resumes")) ])
        (chars "t1") [] = .ok eA ∧
      ingest_single_document (some (chars "b.txt")) none (fun _ => [chars "world"])
        (LLMOutcome.parsed
          [ (chars "renamed_filename", .str (chars "代码分析报告")),
            (chars "description", .str (chars "一份代码分析")),
            (chars "abstract", .str (chars "代码库的分析")),
            (chars "cleaned_content", .str (chars "整理后的分析内容")),
            (chars "collection_type", .str (chars "code_analysis")) ])
        (chars "t2") [] = .ok eB ∧
      eA.collection_type = chars "resumes" ∧
      eB.collection_type = chars "code_analysis" ∧
      (eA.chunk_size, eA.chunk_overlap) ≠ (eB.chunk_size, eB.chunk_overlap) ∧
      eA.applied_splitter = eB.applied_splitter ∧
      eA.applied_splitter = .newIndex (Splitter.semantic 1 70) := by
  refine ⟨by decide, ?_⟩
  exact ⟨_, _, rfl, rfl, rfl, rfl, by decide, rfl, rfl⟩
lemma mem_insertScoreDesc {z x : SearchEntry} {l : List SearchEntry}
    (h : z ∈ insertScoreDesc x l) : z = x ∨ z ∈ l := by
  induction l with
  | nil => simpa [insertScoreDesc] using h
  | cons y t ih =>
    rw [insertScoreDesc] at h
    by_cases hc : y.score < x.score
    · rw [if_pos hc] at h
      simpa using h
    · rw [if_neg hc] at h
      rcases List.mem_cons.mp h with h | h
      · exact Or.inr (by simp [h])
      · rcases ih h with h | h
        · exact Or.inl h
        · exact Or.inr (by simp [h])

lemma pairwise_insertScoreDesc {x : SearchEntry} {l : List SearchEntry}
    (h : l.Pairwise (fun a b => b.score ≤ a.score)) :
    (insertScoreDesc x l).Pairwise (fun a b => b.score ≤ a.score) := by
  induction l with
  | nil => simp [insertScoreDesc]
  | cons y t ih =>
    rw [List.pairwise_cons] at h
    obtain ⟨hy, ht⟩ := h
    rw [insertScoreDesc]
    by_cases hc : y.score < x.score
    · rw [if_pos hc]
      refine List.Pairwise.cons ?_ (List.Pairwise.cons hy ht)
      intro z hz
      rcases List.mem_cons.mp hz with hz | hz
      · rw [hz]; exact le_of_lt hc
      · exact le_trans (hy z hz) (le_of_lt hc)
    · rw [if_neg hc]
      refine List.Pairwise.cons ?_ (ih ht)
      intro z hz
      rcases mem_insertScoreDesc hz with hz | hz
      · rw [hz]; exact not_lt.mp hc
      · exact hy z hz

lemma pairwise_sortByScoreDesc (l : List SearchEntry) :
    (sortByScoreDesc l).Pairwise (fun a b => b.score ≤ a.score) := by
  have key : ∀ (l acc : List SearchEntry),
      acc.Pairwise (fun a b => b.score ≤ a.score) →
      (l.foldl (fun acc x => insertScoreDesc x acc) acc).Pairwise
        (fun a b => b.score ≤ a.score) := by
    intro l
    induction l with
    | nil => intro acc h; simpa using h
    | cons x t ih =>
      intro acc h
      exact ih _ (pairwise_insertScoreDesc h)
  exact key l [] List.Pairwise.nil

lemma renumber_map_score (i : Nat) (l : List SearchEntry) :
    (renumber i l).map (fun e => e.score) = l.map (fun e => e.score) := by
  induction l generalizing i with
  | nil => rfl
  | cons x t ih => simp [renumber, ih]

lemma renumber_length (i : Nat) (l : List SearchEntry) :
    (renumber i l).length = l.length := by
  induction l generalizing i with
  | nil => rfl
  | cons x t ih => simp [renumber, ih]

lemma renumber_map_rank (i : Nat) (l : List SearchEntry) :
    (renumber i l).map (fun e => e.overall_rank)
      = (List.range' i l.length).map some := by
  induction l generalizing i with
  | nil => rfl
  | cons x t ih => simp [renumber, List.range'_succ, ih]
/-- C6: for every query outcome, the merged multi-collection search result is
sorted by score in descending order across all adjacent pairs, contains at
most `top_k` times the number of collections addressed, and carries
`overall_rank` values renumbered sequentially from 1. -/
theorem claim_C6_search_merge_ordering (retrievers : List (Str × List RNode))
    (collection_types : Option (List Str)) (top_k : Nat) :
    ((search_documents retrievers collection_types top_k).map (fun e => e.score)).Pairwise
        (fun a b => b ≤ a) ∧
    (search_documents retrievers collection_types top_k).length
      ≤ top_k * (collection_types.getD (retrievers.map Prod.fst)).length ∧
    (search_documents retrievers collection_types top_k).map (fun e => e.overall_rank)
      = (List.range' 1 (search_documents retrievers collection_types top_k).length).map some := by
  simp only [search_documents]
  by_cases hr : retrievers.isEmpty
  · rw [if_pos hr]
    exact ⟨List.Pairwise.nil, by simp, rfl⟩
  · rw [if_neg hr]
    cases hg : gatherResults retrievers (collection_types.getD (retrievers.map Prod.fst)) top_k with
    | error e => exact ⟨List.Pairwise.nil, by simp, rfl⟩
    | ok all =>
      refine ⟨?_, ?_, ?_⟩
      · rw [renumber_map_score, List.pairwise_map]
        exact (pairwise_sortByScoreDesc all).sublist (List.take_sublist _ _)
      · rw [renumber_length]
        exact List.length_take_le _ _
      · rw [renumber_map_rank, renumber_length]
lemma select_context_tokens_le (max_tokens : Nat) :
    ∀ (l : List SearchEntry) (cur : Nat), cur ≤ max_tokens →
      cur + context_tokens (select_context max_tokens cur l) ≤ max_tokens := by
  intro l
  induction l with
  | nil => intro cur h; simpa [select_context, context_tokens] using h
  | cons r rest ih =>
    intro cur h
    rw [select_context]
    by_cases hc : max_tokens < cur + estimated_tokens r.content
    · rw [if_pos hc]; simpa [context_tokens] using h
    · rw [if_neg hc]
      have h2 : cur + estimated_tokens r.content ≤ max_tokens := not_lt.mp hc
      have := ih (cur + estimated_tokens r.content) h2
      simp only [context_tokens, List.map_cons, List.sum_cons] at this ⊢
      omega

lemma select_context_is_take (max_tokens : Nat) :
    ∀ (l : List SearchEntry) (cur : Nat), ∃ n, select_context max_tokens cur l = l.take n := by
  intro l
  induction l with
  | nil => intro cur; exact ⟨0, rfl⟩
  | cons r rest ih =>
    intro cur
    rw [select_context]
    by_cases hc : max_tokens < cur + estimated_tokens r.content
    · rw [if_pos hc]; exact ⟨0, rfl⟩
    · rw [if_neg hc]
      obtain ⟨n, hn⟩ := ih (cur + estimated_tokens r.content)
      exact ⟨n + 1, by rw [hn]; rfl⟩

/-- C7: the context builder selects a prefix of the ranked search results
(with internal `top_k` 10) greedily, and the running token estimate of the
selection (one token per four characters of chunk content) never exceeds the
requested budget — in particular it never exceeds it by more than one
block's worth. -/
theorem claim_C7_context_token_budget (retrievers : List (Str × List RNode))
    (collection_types : Option (List Str)) (max_tokens : Nat) :
    context_tokens (get_document_context retrievers collection_types max_tokens) ≤ max_tokens ∧
    ∃ n, get_document_context retrievers collection_types max_tokens
        = (search_documents retrievers collection_types 10).take n := by
  constructor
  · simpa using select_context_tokens_le max_tokens
      (search_documents retrievers collection_types 10) 0 (Nat.zero_le _)
  · exact select_context_is_take max_tokens _ 0
